import Mathlib

/-!
Verification of the trade-journaling application in `src/src/App.tsx`.

The application keeps a single in-memory state `{ sessions, activeSessionId }`
and mutates it through pure reducer-like handlers (`handleCreateSession`,
`handleSelectSession`, `handleDeleteSession`, `handleAddTrade`,
`handleUpdateTrade`, `handleDeleteTrade`) plus a JSON export/handleImportData
path.  Each handler is embedded below as a pure function from the previous
state (and the handler argument) to the next state, mirroring the
`setState(...)` call in the source.  UI-only state (`selectedTrade`,
`isQuickAddOpen`) and DOM glue are outside the application state and are not
modelled.
-/

/-- Modelled from the spec: the `Trade` record from `src/types.ts`, a file that
is absent from the snapshot.  The spec glossary describes a trade as "a single
logged trade entry with associated metadata and optional reflection notes";
`App.tsx` additionally reads `t.id`.  Metadata is collapsed into one string
field and the optional reflection notes into an `Option String`. -/
structure Trade where
  id : String
  meta : String
  reflection : Option String
deriving DecidableEq, Repr

/-- Modelled from the spec: the `Session` record from `src/types.ts` (absent
from the snapshot).  The spec glossary calls a session "a named, dated
collection of trades"; `App.tsx` reads `s.id`, `s.name`, `s.date` and
`s.trades`. -/
structure Session where
  id : String
  name : String
  date : String
  trades : List Trade
deriving DecidableEq, Repr

/-- The application state `{ sessions, activeSessionId }` of `App.tsx`
(`activeSessionId : string | null` becomes `Option String`). -/
structure AppState where
  sessions : List Session
  activeSessionId : Option String
deriving DecidableEq, Repr

/-- Embeds `state.sessions.find((s) => s.id === state.activeSessionId)`
(`App.tsx` lines 21-23).  When `activeSessionId` is `null` the JavaScript
strict equality `s.id === null` is false for every string, so `find` returns
`undefined`; this is the `none` case of `find?`. -/
def activeSession (st : AppState) : Option Session :=
  st.sessions.find? (fun s => some s.id = st.activeSessionId)

/-- Embeds `handleCreateSession` (`App.tsx` lines 25-30): the new state is
`{ sessions: [...state.sessions, session], activeSessionId: session.id }`. -/
def handleCreateSession (st : AppState) (session : Session) : AppState :=
  { sessions := st.sessions ++ [session]
    activeSessionId := some session.id }

/-- Embeds `handleSelectSession` (`App.tsx` lines 32-35):
`{ ...state, activeSessionId: sessionId }`. -/
def handleSelectSession (st : AppState) (sessionId : String) : AppState :=
  { st with activeSessionId := some sessionId }

/-- Embeds `handleDeleteSession` (`App.tsx` lines 37-48).  The filter keeps
sessions with `s.id !== sessionId`; the new active id is computed by
`sessionId === state.activeSessionId ? (updatedSessions.length > 0 ?
updatedSessions[0].id : null) : state.activeSessionId` (the ternary on the
filtered list is rendered as a `match`). -/
def handleDeleteSession (st : AppState) (sessionId : String) : AppState :=
  let updatedSessions := st.sessions.filter (fun s => decide (s.id ≠ sessionId))
  let newActiveId :=
    if st.activeSessionId = some sessionId then
      match updatedSessions with
      | [] => none
      | s :: _ => some s.id
    else st.activeSessionId
  { sessions := updatedSessions, activeSessionId := newActiveId }

/-- Embeds `handleAddTrade` (`App.tsx` lines 50-61): if there is no active
session the handler returns without calling `setState`; otherwise every
session with `s.id === activeSession.id` gets the trade appended
(`[...s.trades, trade]`) and the rest are kept as is. -/
def handleAddTrade (st : AppState) (trade : Trade) : AppState :=
  match activeSession st with
  | none => st
  | some act =>
      { st with
        sessions := st.sessions.map (fun s =>
          if s.id = act.id then { s with trades := s.trades ++ [trade] } else s) }

/-- Embeds `handleUpdateTrade` (`App.tsx` lines 71-87): in every session with
`s.id === activeSession.id`, each trade with `t.id === updatedTrade.id` is
replaced by `updatedTrade`. -/
def handleUpdateTrade (st : AppState) (updatedTrade : Trade) : AppState :=
  match activeSession st with
  | none => st
  | some act =>
      { st with
        sessions := st.sessions.map (fun s =>
          if s.id = act.id then
            { s with trades := s.trades.map (fun t =>
                if t.id = updatedTrade.id then updatedTrade else t) }
          else s) }

/-- Embeds `handleDeleteTrade` (`App.tsx` lines 89-103): in every session with
`s.id === activeSession.id`, the trades with `t.id !== tradeId` are kept. -/
def handleDeleteTrade (st : AppState) (tradeId : String) : AppState :=
  match activeSession st with
  | none => st
  | some act =>
      { st with
        sessions := st.sessions.map (fun s =>
          if s.id = act.id then
            { s with trades := s.trades.filter (fun t => decide (t.id ≠ tradeId)) }
          else s) }

/-! Sample data used by concrete witnesses and counterexamples. -/

/-- A sample trade. -/
def sampleTrade : Trade := ⟨"t1", "long 2 ES", none⟩

/-- A sample trade sharing `sampleTrade`'s id but with different contents. -/
def editedTrade : Trade := ⟨"t1", "long 2 ES, exited early", some "took profit too soon"⟩

/-- A sample session with id `a`. -/
def sessionA : Session := ⟨"a", "Day A", "01.02.2024", []⟩

/-- A second session that shares `sessionA`'s id `a`. -/
def sessionB : Session := ⟨"a", "Day B", "01.02.2024", []⟩

/-- A third session sharing id `a` and already holding `sampleTrade`. -/
def sessionC : Session := ⟨"a", "Day C", "01.02.2024", [sampleTrade]⟩

/-- When some session's id equals `activeSessionId`, `find?` produces a first
match `act`, and `act.id` is exactly the active id. -/
lemma activeSession_exists {st : AppState}
    (h : ∃ s ∈ st.sessions, some s.id = st.activeSessionId) :
    ∃ act, activeSession st = some act ∧ st.activeSessionId = some act.id := by
  have hsome : (activeSession st).isSome := by
    rw [activeSession, List.find?_isSome]
    obtain ⟨s, hs, hid⟩ := h
    exact ⟨s, hs, by simpa using hid⟩
  obtain ⟨act, hact⟩ := Option.isSome_iff_exists.mp hsome
  have hact' : st.sessions.find? (fun s => decide (some s.id = st.activeSessionId))
      = some act := hact
  refine ⟨act, hact, ?_⟩
  have hp := List.find?_some hact'
  simp only [decide_eq_true_eq] at hp
  exact hp.symm

/-- C6: handleCreateSession appends the new session at the end of the
sessions list and makes it active; the existing sessions are kept verbatim
(the append equation keeps every old session at its old position). -/
theorem handleCreateSession_spec (st : AppState) (s : Session) :
    (handleCreateSession st s).sessions = st.sessions ++ [s] ∧
    (handleCreateSession st s).activeSessionId = some s.id :=
  ⟨rfl, rfl⟩

/-- C8: handleSelectSession sets activeSessionId to the given id and leaves
the sessions list (hence every session and every trade in it) unchanged. -/
theorem handleSelectSession_spec (st : AppState) (sid : String) :
    (handleSelectSession st sid).activeSessionId = some sid ∧
    (handleSelectSession st sid).sessions = st.sessions :=
  ⟨rfl, rfl⟩

/-- C7: handleDeleteSession removes exactly the sessions whose id equals the
given id: the surviving list is a sublist of the old one (so order and
contents of the survivors are untouched), no survivor carries the deleted id,
and every session with a different id survives (counted with multiplicity). -/
theorem handleDeleteSession_spec (st : AppState) (sid : String) :
    List.Sublist (handleDeleteSession st sid).sessions st.sessions ∧
    (handleDeleteSession st sid).sessions.all (fun s => decide (s.id ≠ sid)) = true ∧
    (handleDeleteSession st sid).sessions.length
      = st.sessions.countP (fun s => decide (s.id ≠ sid)) := by
  refine ⟨List.filter_sublist _, ?_, ?_⟩
  · rw [List.all_eq_true]
    intro s hs
    exact (List.mem_filter.mp hs).2
  · rw [List.countP_eq_length_filter]
    rfl

/-- C9: deleting the currently active session moves activeSessionId to the
first surviving session (or null when none survive); deleting any other id
leaves activeSessionId unchanged. -/
theorem handleDeleteSession_activeId (st : AppState) (sid : String) :
    (handleDeleteSession st sid).activeSessionId =
      if st.activeSessionId = some sid then
        ((handleDeleteSession st sid).sessions.head?).map (fun s => s.id)
      else st.activeSessionId := by
  by_cases hc : st.activeSessionId = some sid
  · simp only [handleDeleteSession, if_pos hc]
    cases st.sessions.filter (fun s => decide (s.id ≠ sid)) <;> rfl
  · simp only [handleDeleteSession, if_neg hc]

/-- C10: when no session's id equals activeSessionId (in particular when
activeSessionId is null), handleAddTrade, handleUpdateTrade and
handleDeleteTrade return the state unchanged. -/
theorem tradeHandlers_noActive (st : AppState) (tr : Trade) (tid : String)
    (h : ∀ s ∈ st.sessions, some s.id ≠ st.activeSessionId) :
    handleAddTrade st tr = st ∧ handleUpdateTrade st tr = st ∧
      handleDeleteTrade st tid = st := by
  have hnone : activeSession st = none := by
    rw [activeSession, List.find?_eq_none]
    intro s hs
    simpa using h s hs
  refine ⟨?_, ?_, ?_⟩ <;>
    simp [handleAddTrade, handleUpdateTrade, handleDeleteTrade, hnone]

/-- Concrete run of `tradeHandlers_noActive`: a state holding one session but
no active id is untouched by the three trade handlers. -/
theorem tradeHandlers_noActive_witness :
    handleAddTrade ⟨[sessionA], none⟩ sampleTrade = ⟨[sessionA], none⟩ ∧
    handleUpdateTrade ⟨[sessionA], none⟩ editedTrade = ⟨[sessionA], none⟩ ∧
    handleDeleteTrade ⟨[sessionA], none⟩ "t1" = ⟨[sessionA], none⟩ :=
  tradeHandlers_noActive ⟨[sessionA], none⟩ sampleTrade "t1" (by decide)

/-- C4 fails as stated when two sessions share the active id: here the state
has an active session (`sessionA`, the first match for id `a`), `sessionB` is
a different session, yet handleAddTrade also rewrites `sessionB` (position 1)
because the map touches every session whose id equals the active id. -/
theorem handleAddTrade_dupId_cex :
    (∃ s ∈ (⟨[sessionA, sessionB], some "a"⟩ : AppState).sessions,
        some s.id = (⟨[sessionA, sessionB], some "a"⟩ : AppState).activeSessionId) ∧
    activeSession ⟨[sessionA, sessionB], some "a"⟩ = some sessionA ∧
    sessionB ≠ sessionA ∧
    (⟨[sessionA, sessionB], some "a"⟩ : AppState).sessions[1]? = some sessionB ∧
    (handleAddTrade ⟨[sessionA, sessionB], some "a"⟩ sampleTrade).sessions[1]?
      ≠ some sessionB := by
  refine ⟨⟨sessionA, by simp, rfl⟩, rfl, by decide, rfl, by decide⟩

/-- C4 (amended): with an active session present, handleAddTrade appends the
trade to the trades of every session whose id equals activeSessionId; sessions
with a different id, the remaining fields of the rewritten sessions, and
activeSessionId are unchanged. -/
theorem handleAddTrade_spec (st : AppState) (tr : Trade)
    (h : ∃ s ∈ st.sessions, some s.id = st.activeSessionId) :
    (handleAddTrade st tr).sessions
      = st.sessions.map (fun s =>
          if some s.id = st.activeSessionId
          then { s with trades := s.trades ++ [tr] } else s) ∧
    (handleAddTrade st tr).activeSessionId = st.activeSessionId := by
  obtain ⟨act, hact, hid⟩ := activeSession_exists h
  constructor
  · simp only [handleAddTrade, hact]
    apply List.map_congr_left
    intro s _
    rw [hid]
    simp only [Option.some.injEq]
  · simp [handleAddTrade, hact]

/-- Concrete run of `handleAddTrade_spec`: adding a trade to a one-session
state appends it to that session and keeps the active id. -/
theorem handleAddTrade_spec_witness :
    (handleAddTrade ⟨[sessionA], some "a"⟩ sampleTrade).sessions
      = [{ sessionA with trades := [sampleTrade] }] ∧
    (handleAddTrade ⟨[sessionA], some "a"⟩ sampleTrade).activeSessionId
      = some "a" := by
  have h := handleAddTrade_spec ⟨[sessionA], some "a"⟩ sampleTrade
    ⟨sessionA, by simp, rfl⟩
  exact ⟨h.1.trans (by decide), h.2⟩

/-- C5 fails as stated when two sessions share the active id: `sessionC`
(position 1) is not the active session (`sessionA` is the first match for id
`a`), yet handleUpdateTrade rewrites its trade `t1` and handleDeleteTrade
drops it, because both operations touch every session whose id equals the
active id. -/
theorem tradeUpdateDelete_dupId_cex :
    (∃ s ∈ (⟨[sessionA, sessionC], some "a"⟩ : AppState).sessions,
        some s.id = (⟨[sessionA, sessionC], some "a"⟩ : AppState).activeSessionId) ∧
    activeSession ⟨[sessionA, sessionC], some "a"⟩ = some sessionA ∧
    sessionC ≠ sessionA ∧
    (⟨[sessionA, sessionC], some "a"⟩ : AppState).sessions[1]? = some sessionC ∧
    (handleUpdateTrade ⟨[sessionA, sessionC], some "a"⟩ editedTrade).sessions[1]?
      ≠ some sessionC ∧
    (handleDeleteTrade ⟨[sessionA, sessionC], some "a"⟩ "t1").sessions[1]?
      ≠ some sessionC := by
  refine ⟨⟨sessionA, by simp, rfl⟩, rfl, by decide, rfl, by decide, by decide⟩

/-- C5 (amended): with an active session present, handleUpdateTrade replaces,
in every session whose id equals activeSessionId, exactly the trades whose id
equals the updated trade's id (a map, so length and order are preserved), and
handleDeleteTrade removes from every such session exactly the trades whose id
equals the given id; trades with other ids, sessions with other ids, and
activeSessionId are unchanged. -/
theorem tradeUpdateDelete_spec (st : AppState) (tr : Trade) (tid : String)
    (h : ∃ s ∈ st.sessions, some s.id = st.activeSessionId) :
    ((handleUpdateTrade st tr).sessions
        = st.sessions.map (fun s =>
            if some s.id = st.activeSessionId then
              { s with trades := s.trades.map (fun t =>
                  if t.id = tr.id then tr else t) }
            else s) ∧
      (handleUpdateTrade st tr).activeSessionId = st.activeSessionId) ∧
    ((handleDeleteTrade st tid).sessions
        = st.sessions.map (fun s =>
            if some s.id = st.activeSessionId then
              { s with trades := s.trades.filter (fun t => decide (t.id ≠ tid)) }
            else s) ∧
      (handleDeleteTrade st tid).activeSessionId = st.activeSessionId) := by
  obtain ⟨act, hact, hid⟩ := activeSession_exists h
  refine ⟨⟨?_, ?_⟩, ?_, ?_⟩
  · simp only [handleUpdateTrade, hact]
    apply List.map_congr_left
    intro s _
    rw [hid]
    simp only [Option.some.injEq]
  · simp [handleUpdateTrade, hact]
  · simp only [handleDeleteTrade, hact]
    apply List.map_congr_left
    intro s _
    rw [hid]
    simp only [Option.some.injEq]
  · simp [handleDeleteTrade, hact]

/-- Concrete run of `tradeUpdateDelete_spec`: in a one-session state holding
`sampleTrade`, updating trade `t1` rewrites it in place and deleting `t1`
empties the trades list, with the active id kept both times. -/
theorem tradeUpdateDelete_spec_witness :
    ((handleUpdateTrade ⟨[sessionC], some "a"⟩ editedTrade).sessions
        = [{ sessionC with trades := [editedTrade] }] ∧
      (handleUpdateTrade ⟨[sessionC], some "a"⟩ editedTrade).activeSessionId
        = some "a") ∧
    ((handleDeleteTrade ⟨[sessionC], some "a"⟩ "t1").sessions
        = [{ sessionC with trades := [] }] ∧
      (handleDeleteTrade ⟨[sessionC], some "a"⟩ "t1").activeSessionId
        = some "a") := by
  have h := tradeUpdateDelete_spec ⟨[sessionC], some "a"⟩ editedTrade "t1"
    ⟨sessionC, by simp, rfl⟩
  exact ⟨⟨h.1.1.trans (by decide), h.1.2⟩, h.2.1.trans (by decide), h.2.2⟩

/-! JSON model for the export/handleImportData path (`App.tsx` lines 105-153).
A `Json` value stands for a value returned by `JSON.parse` (so object keys are
the keys of the resulting JavaScript object: `JSON.parse` keeps the last
occurrence of a duplicated key, hence field lists are read as maps and looked
up by first occurrence of the unique key). -/

/-- A JavaScript JSON value, as produced by `JSON.parse`. -/
inductive Json where
  | null : Json
  | bool : Bool → Json
  | num : Int → Json
  | str : String → Json
  | arr : List Json → Json
  | obj : List (String × Json) → Json

/-- Field lookup in an object's key-value list. -/
def lookupField : List (String × Json) → String → Option Json
  | [], _ => none
  | (k, v) :: rest, key => if k = key then some v else lookupField rest key

/-- Outcome of a JavaScript property access `x.key`. -/
inductive JsAccess where
  | threw : JsAccess
  | undefinedVal : JsAccess
  | val : Json → JsAccess

/-- JavaScript property access on a parsed JSON value: reading a property of
`null` throws a `TypeError`; objects yield the stored field or `undefined`;
every other value (arrays and boxed primitives have no such own property)
yields `undefined`. -/
def Json.access : Json → String → JsAccess
  | .null, _ => .threw
  | .obj fs, key =>
      match lookupField fs key with
      | some v => .val v
      | none => .undefinedVal
  | _, _ => .undefinedVal

/-- JavaScript truthiness of a parsed JSON value (`undefined` is handled at
the `JsAccess` level): `null`, `false`, `0` and the empty string are falsy;
every array and object is truthy. -/
def Json.truthy : Json → Bool
  | .null => false
  | .bool b => b
  | .num n => decide (n ≠ 0)
  | .str s => decide (s ≠ "")
  | .arr _ => true
  | .obj _ => true

/-- Embeds `Array.isArray`. -/
def Json.isArr : Json → Bool
  | .arr _ => true
  | _ => false

/-- Spec-side structural check, written from the spec's words: the parsed
value "has a `sessions` field that is an array". -/
def hasSessionsArray : Json → Bool
  | .obj fs =>
      match lookupField fs "sessions" with
      | some (.arr _) => true
      | _ => false
  | _ => false

/-- Observable outcome of one run of `handleImportData`'s `FileReader.onload`
callback: `newState = some d` means `setState(d)` was called (the application
state is replaced by `d`), `none` means the state was left unchanged;
`confirmShown` records whether `window.confirm` was invoked; `alert` is the
message shown via `alert`, if any. -/
structure ImportStep where
  newState : Option Json
  confirmShown : Bool
  alert : Option String

/-- Embeds the `reader.onload` body of `handleImportData` (`App.tsx` lines
123-148).  `parsed` is the result of `JSON.parse` on the file text (`none`
when it threw); `confirmed` is the value `window.confirm` would return.  The
try/catch turns both a parse failure and the `TypeError` from
`importedData.sessions` on a `null` value into the failure alert; a falsy or
non-array `sessions` gives the invalid-format alert; the confirmation dialog
runs only when `state.sessions.length > 0`. -/
def handleImportData (parsed : Option Json) (st : AppState) (confirmed : Bool) :
    ImportStep :=
  match parsed with
  | none => ⟨none, false, some "Failed to import data. Please check the file format."⟩
  | some d =>
      match d.access "sessions" with
      | .threw => ⟨none, false, some "Failed to import data. Please check the file format."⟩
      | .undefinedVal => ⟨none, false, some "Invalid backup file format"⟩
      | .val v =>
          if !v.truthy || !v.isArr then
            ⟨none, false, some "Invalid backup file format"⟩
          else if st.sessions.length > 0 then
            if confirmed then ⟨some d, true, some "Data imported successfully!"⟩
            else ⟨none, true, none⟩
          else ⟨some d, false, some "Data imported successfully!"⟩

/-- Serialization of a trade, mirroring `JSON.stringify` on the `Trade`
object: string fields are emitted in declaration order and an absent optional
reflection (an `undefined` property) is omitted from the output. -/
def encodeTrade (t : Trade) : Json :=
  .obj ([("id", .str t.id), ("meta", .str t.meta)] ++
    (match t.reflection with
     | some r => [("reflection", .str r)]
     | none => []))

/-- Serialization of a session, mirroring `JSON.stringify` on the `Session`
object. -/
def encodeSession (s : Session) : Json :=
  .obj [("id", .str s.id), ("name", .str s.name), ("date", .str s.date),
        ("trades", .arr (s.trades.map encodeTrade))]

/-- Serialization of the whole application state, mirroring `JSON.stringify`
on `{ sessions, activeSessionId }` (a `null` active id is emitted as JSON
`null`). -/
def encodeState (st : AppState) : Json :=
  .obj [("sessions", .arr (st.sessions.map encodeSession)),
        ("activeSessionId",
          match st.activeSessionId with
          | some a => .str a
          | none => .null)]

/-- Embeds `handleExportData` (`App.tsx` lines 105-116) at the JSON-value
level: the handler runs `JSON.stringify(state, null, 2)` and hands the text to
the browser as a download; `JSON.stringify` / `JSON.parse` are platform
builtins forming an inverse pair on these values, so the file content is
modelled by the JSON value of the state and the Blob/anchor glue is not
modelled. -/
def handleExportData (st : AppState) : Json :=
  encodeState st

/-- Reads a trade back from its JSON value (a missing or non-string
reflection field is read as no reflection). -/
def decodeTrade : Json → Option Trade
  | .obj fs =>
      match lookupField fs "id", lookupField fs "meta" with
      | some (.str i), some (.str m) =>
          some ⟨i, m,
            match lookupField fs "reflection" with
            | some (.str r) => some r
            | _ => none⟩
      | _, _ => none
  | _ => none

/-- Reads a list of trades back from JSON values. -/
def decodeTrades : List Json → Option (List Trade)
  | [] => some []
  | j :: rest =>
      match decodeTrade j, decodeTrades rest with
      | some t, some ts => some (t :: ts)
      | _, _ => none

/-- Reads a session back from its JSON value. -/
def decodeSession : Json → Option Session
  | .obj fs =>
      match lookupField fs "id", lookupField fs "name", lookupField fs "date",
          lookupField fs "trades" with
      | some (.str i), some (.str n), some (.str d), some (.arr js) =>
          match decodeTrades js with
          | some ts => some ⟨i, n, d, ts⟩
          | none => none
      | _, _, _, _ => none
  | _ => none

/-- Reads a list of sessions back from JSON values. -/
def decodeSessions : List Json → Option (List Session)
  | [] => some []
  | j :: rest =>
      match decodeSession j, decodeSessions rest with
      | some s, some ss => some (s :: ss)
      | _, _ => none

/-- Reads an application state back from its JSON value (a `null` or missing
active id is read as no active session). -/
def decodeState : Json → Option AppState
  | .obj fs =>
      match lookupField fs "sessions" with
      | some (.arr js) =>
          match decodeSessions js with
          | some ss =>
              some ⟨ss,
                match lookupField fs "activeSessionId" with
                | some (.str a) => some a
                | _ => none⟩
          | none => none
      | _ => none
  | _ => none

/-- Decoding inverts trade serialization. -/
lemma decodeTrade_encodeTrade (t : Trade) : decodeTrade (encodeTrade t) = some t := by
  obtain ⟨i, m, r⟩ := t
  cases r <;> rfl

/-- Decoding inverts trade-list serialization. -/
lemma decodeTrades_encodeTrade (ts : List Trade) :
    decodeTrades (ts.map encodeTrade) = some ts := by
  induction ts with
  | nil => rfl
  | cons t ts ih => simp [decodeTrades, decodeTrade_encodeTrade, ih]

/-- Decoding inverts session serialization. -/
lemma decodeSession_encodeSession (s : Session) :
    decodeSession (encodeSession s) = some s := by
  obtain ⟨i, n, d, ts⟩ := s
  simp [encodeSession, decodeSession, lookupField, decodeTrades_encodeTrade]

/-- Decoding inverts session-list serialization. -/
lemma decodeSessions_encodeSession (ss : List Session) :
    decodeSessions (ss.map encodeSession) = some ss := by
  induction ss with
  | nil => rfl
  | cons s ss ih => simp [decodeSessions, decodeSession_encodeSession, ih]

/-- Decoding inverts state serialization: the backup holds the entire state. -/
lemma decodeState_encodeState (st : AppState) :
    decodeState (encodeState st) = some st := by
  obtain ⟨ss, a⟩ := st
  cases a <;>
    simp [encodeState, decodeState, lookupField, decodeSessions_encodeSession]

/-- The state is replaced exactly when the parse succeeded, the parsed value
has a `sessions` field that is an array, and either the current sessions list
is empty or the user confirmed; the replacement value is the parsed value. -/
lemma import_newState_eq (parsed : Option Json) (st : AppState) (confirmed : Bool) :
    (handleImportData parsed st confirmed).newState =
      match parsed with
      | none => none
      | some d =>
          if hasSessionsArray d = true ∧ (st.sessions.length > 0 → confirmed = true)
          then some d else none := by
  cases parsed with
  | none => rfl
  | some d =>
      cases d with
      | null => simp [handleImportData, Json.access, hasSessionsArray]
      | bool b => simp [handleImportData, Json.access, hasSessionsArray]
      | num n => simp [handleImportData, Json.access, hasSessionsArray]
      | str s => simp [handleImportData, Json.access, hasSessionsArray]
      | arr xs => simp [handleImportData, Json.access, hasSessionsArray]
      | obj fs =>
          cases hl : lookupField fs "sessions" with
          | none => simp [handleImportData, Json.access, hasSessionsArray, hl]
          | some v =>
              cases v with
              | arr xs =>
                  simp only [handleImportData, Json.access, hasSessionsArray, hl,
                    Json.truthy, Json.isArr, Bool.not_true, Bool.or_self,
                    Bool.false_eq_true, if_false]
                  by_cases hlen : st.sessions.length > 0 <;>
                    by_cases hc : confirmed = true <;>
                      simp [hlen, hc]
              | null => simp [handleImportData, Json.access, hasSessionsArray, hl,
                  Json.truthy, Json.isArr]
              | bool b => simp [handleImportData, Json.access, hasSessionsArray, hl,
                  Json.truthy, Json.isArr]
              | num n => simp [handleImportData, Json.access, hasSessionsArray, hl,
                  Json.truthy, Json.isArr]
              | str s => simp [handleImportData, Json.access, hasSessionsArray, hl,
                  Json.truthy, Json.isArr]
              | obj gs => simp [handleImportData, Json.access, hasSessionsArray, hl,
                  Json.truthy, Json.isArr]

/-- A parsed value without an array-valued `sessions` field is rejected: no
state change, no confirmation dialog, and an alert is shown. -/
lemma import_invalid_eq (d : Json) (st : AppState) (confirmed : Bool)
    (h : hasSessionsArray d = false) :
    (handleImportData (some d) st confirmed).newState = none ∧
    (handleImportData (some d) st confirmed).confirmShown = false ∧
    ((handleImportData (some d) st confirmed).alert).isSome = true := by
  cases d with
  | null => exact ⟨rfl, rfl, rfl⟩
  | bool b => exact ⟨rfl, rfl, rfl⟩
  | num n => exact ⟨rfl, rfl, rfl⟩
  | str s => exact ⟨rfl, rfl, rfl⟩
  | arr xs => exact ⟨rfl, rfl, rfl⟩
  | obj fs =>
      cases hl : lookupField fs "sessions" with
      | none =>
          refine ⟨?_, ?_, ?_⟩ <;> simp [handleImportData, Json.access, hl]
      | some v =>
          cases v with
          | arr xs => simp [hasSessionsArray, hl] at h
          | null =>
              refine ⟨?_, ?_, ?_⟩ <;>
                simp [handleImportData, Json.access, hl, Json.truthy, Json.isArr]
          | bool b =>
              refine ⟨?_, ?_, ?_⟩ <;>
                simp [handleImportData, Json.access, hl, Json.truthy, Json.isArr]
          | num n =>
              refine ⟨?_, ?_, ?_⟩ <;>
                simp [handleImportData, Json.access, hl, Json.truthy, Json.isArr]
          | str s =>
              refine ⟨?_, ?_, ?_⟩ <;>
                simp [handleImportData, Json.access, hl, Json.truthy, Json.isArr]
          | obj gs =>
              refine ⟨?_, ?_, ?_⟩ <;>
                simp [handleImportData, Json.access, hl, Json.truthy, Json.isArr]

/-- A parsed value that passes the structural check runs the confirmation
logic: with existing sessions the dialog decides between replacing and doing
nothing, without existing sessions the state is replaced immediately. -/
lemma import_valid_eq (d : Json) (st : AppState) (confirmed : Bool)
    (h : hasSessionsArray d = true) :
    handleImportData (some d) st confirmed =
      if st.sessions.length > 0 then
        if confirmed then ⟨some d, true, some "Data imported successfully!"⟩
        else ⟨none, true, none⟩
      else ⟨some d, false, some "Data imported successfully!"⟩ := by
  cases d with
  | null => simp [hasSessionsArray] at h
  | bool b => simp [hasSessionsArray] at h
  | num n => simp [hasSessionsArray] at h
  | str s => simp [hasSessionsArray] at h
  | arr xs => simp [hasSessionsArray] at h
  | obj fs =>
      cases hl : lookupField fs "sessions" with
      | none => simp [hasSessionsArray, hl] at h
      | some v =>
          cases v with
          | null => simp [hasSessionsArray, hl] at h
          | bool b => simp [hasSessionsArray, hl] at h
          | num n => simp [hasSessionsArray, hl] at h
          | str s => simp [hasSessionsArray, hl] at h
          | obj gs => simp [hasSessionsArray, hl] at h
          | arr xs =>
              simp [handleImportData, Json.access, hl, Json.truthy, Json.isArr]

/-- C1: handleImportData replaces the application state with the parsed value
only if the file parsed as JSON and the parsed value has a `sessions` field
that is an array; when parsing throws or the structural check fails, an alert
is shown and the state is unchanged. -/
theorem handleImportData_guarded (parsed : Option Json) (st : AppState)
    (confirmed : Bool) :
    (∀ d, (handleImportData parsed st confirmed).newState = some d →
        parsed = some d ∧ hasSessionsArray d = true) ∧
    ((parsed = none ∨ ∃ d, parsed = some d ∧ hasSessionsArray d = false) →
        (handleImportData parsed st confirmed).newState = none ∧
        ((handleImportData parsed st confirmed).alert).isSome = true) := by
  constructor
  · intro d hd
    rw [import_newState_eq] at hd
    cases hp : parsed with
    | none => rw [hp] at hd; simp at hd
    | some d0 =>
        rw [hp] at hd
        simp only at hd
        by_cases hcond :
            hasSessionsArray d0 = true ∧ (st.sessions.length > 0 → confirmed = true)
        · rw [if_pos hcond] at hd
          obtain rfl : d0 = d := by simpa using hd
          exact ⟨rfl, hcond.1⟩
        · rw [if_neg hcond] at hd
          simp at hd
  · rintro (hp | ⟨d, hp, hf⟩)
    · rw [hp]
      exact ⟨rfl, rfl⟩
    · rw [hp]
      exact ⟨(import_invalid_eq d st confirmed hf).1,
        (import_invalid_eq d st confirmed hf).2.2⟩

/-- Concrete run of `handleImportData_guarded`: a parsed object without a
`sessions` field leaves the state unchanged and raises an alert. -/
theorem handleImportData_guarded_witness :
    (handleImportData (some (Json.obj [])) ⟨[], none⟩ true).newState = none ∧
    ((handleImportData (some (Json.obj [])) ⟨[], none⟩ true).alert).isSome = true :=
  (handleImportData_guarded (some (Json.obj [])) ⟨[], none⟩ true).2
    (Or.inr ⟨Json.obj [], rfl, rfl⟩)

/-- A well-formed backup value used by the import theorems: one session with
id `a` and active id `a`. -/
def validBackup : Json :=
  Json.obj [("sessions", Json.arr [encodeSession sessionA]),
            ("activeSessionId", Json.str "a")]

/-- C2 fails as stated: when the current state has no sessions, a valid
backup replaces the state without any confirmation dialog (`window.confirm`
is only reached when `state.sessions.length > 0`), even though the import
overwrites the current application state. -/
theorem import_noConfirm_cex :
    (handleImportData (some validBackup) ⟨[], none⟩ false).newState
      = some validBackup ∧
    (handleImportData (some validBackup) ⟨[], none⟩ false).confirmShown = false :=
  ⟨rfl, rfl⟩

/-- C2 (amended): an import that overwrites a state holding at least one
session is preceded by the confirmation dialog, and whenever the dialog is
shown and the user declines, the application state is unchanged; a state with
no sessions is overwritten without confirmation. -/
theorem import_confirm_spec (parsed : Option Json) (st : AppState)
    (confirmed : Bool) :
    (st.sessions ≠ [] → ∀ d,
        (handleImportData parsed st confirmed).newState = some d →
        (handleImportData parsed st confirmed).confirmShown = true) ∧
    (confirmed = false →
        (handleImportData parsed st confirmed).confirmShown = true →
        (handleImportData parsed st confirmed).newState = none) := by
  constructor
  · intro hne d hd
    cases hp : parsed with
    | none => rw [hp] at hd; simp [handleImportData] at hd
    | some d0 =>
        rw [hp] at hd
        by_cases hv : hasSessionsArray d0 = true
        · rw [import_valid_eq d0 st confirmed hv] at hd ⊢
          have hlen : st.sessions.length > 0 := List.length_pos.mpr hne
          rw [if_pos hlen] at hd ⊢
          by_cases hc : confirmed = true <;> simp [hc]
        · have := (import_invalid_eq d0 st confirmed (by simpa using hv)).1
          rw [this] at hd
          simp at hd
  · intro hc hshown
    cases hp : parsed with
    | none => rw [hp] at hshown; simp [handleImportData] at hshown
    | some d0 =>
        rw [hp] at hshown
        by_cases hv : hasSessionsArray d0 = true
        · rw [import_valid_eq d0 st confirmed hv] at hshown ⊢
          by_cases hlen : st.sessions.length > 0
          · rw [if_pos hlen] at hshown ⊢
            simp [hc]
          · rw [if_neg hlen] at hshown
            simp at hshown
        · have := (import_invalid_eq d0 st confirmed (by simpa using hv)).2.1
          rw [this] at hshown
          simp at hshown

/-- Concrete run of `import_confirm_spec`: importing a valid backup over a
one-session state shows the dialog when the import goes through, and a
declined dialog leaves the state unchanged. -/
theorem import_confirm_spec_witness :
    (handleImportData (some validBackup) ⟨[sessionA], some "a"⟩ true).confirmShown
      = true ∧
    (handleImportData (some validBackup) ⟨[sessionA], some "a"⟩ false).newState
      = none := by
  constructor
  · exact (import_confirm_spec (some validBackup) ⟨[sessionA], some "a"⟩ true).1
      (by simp) validBackup rfl
  · exact (import_confirm_spec (some validBackup) ⟨[sessionA], some "a"⟩ false).2
      rfl rfl

/-- C3: the export/handleImportData round trip. handleExportData emits the
JSON value of the entire state (sessions, their trades, and activeSessionId);
that value passes the structural check of handleImportData, so importing the
backup with the confirmation accepted replaces the state with the exported
value, and reading the exported value back as an application state recovers
the original state exactly. -/
theorem exportImport_roundtrip (st stCur : AppState) :
    (handleImportData (some (handleExportData st)) stCur true).newState
      = some (handleExportData st) ∧
    decodeState (handleExportData st) = some st := by
  constructor
  · have hv : hasSessionsArray (handleExportData st) = true := rfl
    rw [import_valid_eq (handleExportData st) stCur true hv]
    by_cases hlen : stCur.sessions.length > 0
    · rw [if_pos hlen]
      rfl
    · rw [if_neg hlen]
  · exact decodeState_encodeState st
